import Mathlib

/-!
Verification of the `SecurityParams` component of an SNMP User-based
Security Model implementation (src/src/snmp_usm/src/security_params.rs):
the data model, the builder-style mutation interface, and the ASN.1
BER/DER wire codec for the six-field security-parameter SEQUENCE.

The ASN.1 primitive codec (the external `yasna` crate) is not part of the
repository sources; following the specification it is a trusted external
library providing read/write-integer and read/write-octet-string
operations, and its primitives are modelled here from the specification's
description of the wire format (DER on encode, definite-length BER parse
on decode).
-/

/-- Big-endian base-256 value of a digit list. -/
def beVal (l : List Nat) : Nat :=
  l.foldl (fun acc b => acc * 256 + b) 0

/-- Fuelled minimal big-endian base-256 digit expansion (empty for zero). -/
def beDigitsAux : Nat → Nat → List Nat
  | 0, _ => []
  | fuel + 1, n => if n = 0 then [] else beDigitsAux fuel (n / 256) ++ [n % 256]

/-- Modelled from the spec: minimal big-endian base-256 digits of a natural
number, used by the trusted ASN.1 codec for long-form length octets. -/
def beDigits (n : Nat) : List Nat := beDigitsAux n n

/-- Modelled from the spec: DER definite-length octets (short form below
128, long form with a length-of-length octet otherwise). -/
def lenEncode (n : Nat) : List Nat :=
  if n < 128 then [n] else (128 + (beDigits n).length) :: beDigits n

/-- Modelled from the spec: minimal two's-complement content octets of a
32-bit signed integer, big-endian, as produced by the trusted ASN.1
codec's write-integer primitive: the shortest byte count whose signed
range contains the value, then that many big-endian bytes of the value
reduced modulo the matching power of two. -/
def i32Content (v : Int) : List Nat :=
  if -128 ≤ v ∧ v < 128 then
    [(v % 256).toNat]
  else if -32768 ≤ v ∧ v < 32768 then
    [(v % 65536).toNat / 256, (v % 65536).toNat % 256]
  else if -8388608 ≤ v ∧ v < 8388608 then
    [(v % 16777216).toNat / 65536, (v % 16777216).toNat / 256 % 256,
     (v % 16777216).toNat % 256]
  else
    [(v % 4294967296).toNat / 16777216, (v % 4294967296).toNat / 65536 % 256,
     (v % 4294967296).toNat / 256 % 256, (v % 4294967296).toNat % 256]

/-- Modelled from the spec: DER OCTET STRING element (tag 0x04). -/
def writeBytes (s : List Nat) : List Nat :=
  4 :: (lenEncode s.length ++ s)

/-- Modelled from the spec: DER INTEGER element (tag 0x02) of a 32-bit
signed value. -/
def writeI32 (v : Int) : List Nat :=
  2 :: (lenEncode (i32Content v).length ++ i32Content v)

/-- Modelled from the spec: BER definite-length parse (short or long
form); the indefinite-length marker 0x80 is not a definite length. -/
def readLen : List Nat → Option (Nat × List Nat)
  | [] => none
  | b :: rest =>
    if b < 128 then some (b, rest)
    else if b = 128 then none
    else if rest.length < b - 128 then none
    else some (beVal (rest.take (b - 128)), rest.drop (b - 128))

/-- Modelled from the spec: BER tag-length-value parse of one element with
the expected tag, returning its content octets and the remaining input. -/
def readTLV (tag : Nat) : List Nat → Option (List Nat × List Nat)
  | [] => none
  | t :: rest =>
    if t = tag then
      match readLen rest with
      | none => none
      | some (l, rest2) =>
        if l ≤ rest2.length then some (rest2.take l, rest2.drop l) else none
    else none

/-- Modelled from the spec: two's-complement value of BER INTEGER content
octets; empty content and non-minimal content (first nine bits all equal)
are rejected. -/
def intFromContent : List Nat → Option Int
  | [] => none
  | [c] => some (if c < 128 then (c : Int) else (c : Int) - 256)
  | c0 :: c1 :: rest =>
    if (c0 = 0 ∧ c1 < 128) ∨ (c0 = 255 ∧ 128 ≤ c1) then none
    else
      let n := beVal (c0 :: c1 :: rest)
      some (if c0 < 128 then (n : Int) else (n : Int) - 2 ^ (8 * (rest.length + 2)))

/-- Modelled from the spec: BER INTEGER parse of arbitrary magnitude. -/
def readIntRaw (buf : List Nat) : Option (Int × List Nat) :=
  match readTLV 2 buf with
  | none => none
  | some (c, rest) =>
    match intFromContent c with
    | none => none
    | some v => some (v, rest)

/-- Modelled from the spec: the trusted codec's read-32-bit-integer
primitive; fails when the integer value does not fit in a 32-bit signed
integer. -/
def readI32 (buf : List Nat) : Option (Int × List Nat) :=
  match readIntRaw buf with
  | none => none
  | some (v, rest) =>
    if v < -2147483648 ∨ 2147483648 ≤ v then none else some (v, rest)

/-- Modelled from the spec: the one error kind this core raises, `decode`
collapsing every structural or semantic failure to it uniformly. -/
inductive SecurityError where
  | MalformedSecurityParams
deriving DecidableEq

/-- The USM security parameters record of
src/src/snmp_usm/src/security_params.rs: engine identity, the two
anti-replay counters (32-bit signed in the source), user identity, and the
authentication and privacy parameter byte fields. -/
structure SecurityParams where
  engine_id : List Nat
  engine_boots : Int
  engine_time : Int
  username : List Nat
  auth_params : List Nat
  priv_params : List Nat
deriving DecidableEq

/-- The fixed 12-byte all-zero authentication-parameters placeholder
(`AUTH_PARAMS_PLACEHOLDER`, pinned by the src doc example asserting
`auth_params() == [0x0; 12]` after installing it). -/
def AUTH_PARAMS_PLACEHOLDER : List Nat := List.replicate 12 0

namespace SecurityParams

/-- `SecurityParams::new`: alias for `discovery`, the all-default value. -/
def new : SecurityParams := ⟨[], 0, 0, [], [], []⟩

/-- `SecurityParams::discovery`: zero-length engine ID and username, both
counters zero, empty auth and priv parameters. -/
def discovery : SecurityParams := ⟨[], 0, 0, [], [], []⟩

/-- `set_engine_id`: clears the field and copies the given bytes in. -/
def set_engine_id (sp : SecurityParams) (engine_id : List Nat) : SecurityParams :=
  { sp with engine_id := engine_id }

/-- `set_engine_boots`: stores 0 when the input is negative, the input
itself otherwise. -/
def set_engine_boots (sp : SecurityParams) (engine_boots : Int) : SecurityParams :=
  { sp with engine_boots := if engine_boots < 0 then 0 else engine_boots }

/-- `set_engine_time`: stores 0 when the input is negative, the input
itself otherwise. -/
def set_engine_time (sp : SecurityParams) (engine_time : Int) : SecurityParams :=
  { sp with engine_time := if engine_time < 0 then 0 else engine_time }

/-- `set_username`: clears the field and copies the given bytes in. -/
def set_username (sp : SecurityParams) (username : List Nat) : SecurityParams :=
  { sp with username := username }

/-- `set_auth_params`: clears the field and copies the given bytes in. -/
def set_auth_params (sp : SecurityParams) (auth_params : List Nat) : SecurityParams :=
  { sp with auth_params := auth_params }

/-- `set_auth_params_placeholder`: installs the fixed 12-byte all-zero
placeholder via `set_auth_params`. -/
def set_auth_params_placeholder (sp : SecurityParams) : SecurityParams :=
  sp.set_auth_params AUTH_PARAMS_PLACEHOLDER

/-- `set_priv_params`: clears the field and copies the given bytes in. -/
def set_priv_params (sp : SecurityParams) (priv_params : List Nat) : SecurityParams :=
  { sp with priv_params := priv_params }

/-- The DER SEQUENCE body written by `SecurityParams::encode`: the six
fields in fixed order. -/
def encodeBody (sp : SecurityParams) : List Nat :=
  writeBytes sp.engine_id ++
    (writeI32 sp.engine_boots ++
      (writeI32 sp.engine_time ++
        (writeBytes sp.username ++
          (writeBytes sp.auth_params ++ writeBytes sp.priv_params))))

/-- `SecurityParams::encode`: the DER SEQUENCE (tag 0x30) of the six
fields. -/
def encode (sp : SecurityParams) : List Nat :=
  48 :: (lenEncode (encodeBody sp).length ++ encodeBody sp)

/-- Structural parse of a six-element security-parameter SEQUENCE with
unbounded integers and no range or sign validation; the whole input and
the whole SEQUENCE body must be consumed. This is the parsing skeleton of
`SecurityParams::decode` before any 32-bit or sign check. -/
def parseRawFields (buf : List Nat) :
    Option (List Nat × Int × Int × List Nat × List Nat × List Nat) :=
  match readTLV 48 buf with
  | none => none
  | some (body, rest) =>
    if rest ≠ [] then none
    else
      match readTLV 4 body with
      | none => none
      | some (e, r1) =>
        match readIntRaw r1 with
        | none => none
        | some (b, r2) =>
          match readIntRaw r2 with
          | none => none
          | some (t, r3) =>
            match readTLV 4 r3 with
            | none => none
            | some (u, r4) =>
              match readTLV 4 r4 with
              | none => none
              | some (a, r5) =>
                match readTLV 4 r5 with
                | none => none
                | some (p, r6) =>
                  if r6 ≠ [] then none else some (e, b, t, u, a, p)

/-- The parsing closure of `SecurityParams::decode`: a SEQUENCE of six
reads in fixed order, the two counters read with the 32-bit read-integer
primitive, with the explicit rejection of negative counters between the
counter reads and the username read, exactly as in the source. -/
def decodeAux (buf : List Nat) : Option SecurityParams :=
  match readTLV 48 buf with
  | none => none
  | some (body, rest) =>
    if rest ≠ [] then none
    else
      match readTLV 4 body with
      | none => none
      | some (engine_id, r1) =>
        match readI32 r1 with
        | none => none
        | some (engine_boots, r2) =>
          match readI32 r2 with
          | none => none
          | some (engine_time, r3) =>
            if engine_boots < 0 ∨ engine_time < 0 then none
            else
              match readTLV 4 r3 with
              | none => none
              | some (username, r4) =>
                match readTLV 4 r4 with
                | none => none
                | some (auth_params, r5) =>
                  match readTLV 4 r5 with
                  | none => none
                  | some (priv_params, r6) =>
                    if r6 ≠ [] then none
                    else some ⟨engine_id, engine_boots, engine_time,
                               username, auth_params, priv_params⟩

/-- `SecurityParams::decode`: every parse failure is mapped to the uniform
`MalformedSecurityParams` error. -/
def decode (buf : List Nat) : Except SecurityError SecurityParams :=
  match decodeAux buf with
  | none => Except.error SecurityError.MalformedSecurityParams
  | some sp => Except.ok sp

/-- A record built from the given field values through the public builder
interface: `new` followed by the six setters. -/
def mkRecord (e : List Nat) (b t : Int) (u a p : List Nat) : SecurityParams :=
  (((((SecurityParams.new.set_engine_id e).set_engine_boots b).set_engine_time
    t).set_username u).set_auth_params a).set_priv_params p

end SecurityParams

/-! ### Helper lemmas about the modelled codec primitives -/

lemma beVal_append_single (xs : List Nat) (b : Nat) :
    beVal (xs ++ [b]) = beVal xs * 256 + b := by
  simp [beVal, List.foldl_append]

lemma beVal_beDigitsAux : ∀ fuel n, n ≤ fuel → beVal (beDigitsAux fuel n) = n := by
  intro fuel
  induction fuel with
  | zero =>
    intro n h
    have h0 : n = 0 := by omega
    subst h0
    simp [beDigitsAux, beVal]
  | succ f ih =>
    intro n h
    by_cases h0 : n = 0
    · simp [beDigitsAux, h0, beVal]
    · have hdiv : n / 256 < n := Nat.div_lt_self (Nat.pos_of_ne_zero h0) (by omega)
      rw [show beDigitsAux (f + 1) n = beDigitsAux f (n / 256) ++ [n % 256] from by
        simp [beDigitsAux, h0]]
      rw [beVal_append_single, ih (n / 256) (by omega)]
      omega

lemma beVal_beDigits (n : Nat) : beVal (beDigits n) = n :=
  beVal_beDigitsAux n n (le_refl n)

lemma beDigits_ne_nil (n : Nat) (h0 : n ≠ 0) : beDigits n ≠ [] := by
  unfold beDigits
  cases hn : n with
  | zero => exact absurd hn h0
  | succ m => simp [beDigitsAux, hn ▸ h0]

lemma readLen_lenEncode (n : Nat) (rest : List Nat) :
    readLen (lenEncode n ++ rest) = some (n, rest) := by
  by_cases h : n < 128
  · simp [lenEncode, h, readLen]
  · have h0 : n ≠ 0 := by omega
    have hne : beDigits n ≠ [] := beDigits_ne_nil n h0
    have hpos : 0 < (beDigits n).length := List.length_pos.mpr hne
    rw [show lenEncode n ++ rest =
        (128 + (beDigits n).length) :: (beDigits n ++ rest) from by
      simp [lenEncode, h]]
    simp only [readLen, Nat.add_sub_cancel_left]
    rw [if_neg (by omega), if_neg (by omega),
      if_neg (by rw [List.length_append]; omega),
      List.take_left, List.drop_left, beVal_beDigits]

lemma readTLV_mk (tag : Nat) (s rest : List Nat) :
    readTLV tag (tag :: (lenEncode s.length ++ (s ++ rest))) = some (s, rest) := by
  simp only [readTLV, readLen_lenEncode, if_true]
  rw [if_pos (by rw [List.length_append]; omega), List.take_left, List.drop_left]

lemma readTLV_writeBytes (s rest : List Nat) :
    readTLV 4 (writeBytes s ++ rest) = some (s, rest) := by
  have h := readTLV_mk 4 s rest
  simpa [writeBytes, List.append_assoc] using h

lemma readTLV_writeBytes_nil (s : List Nat) :
    readTLV 4 (writeBytes s) = some (s, []) := by
  have h := readTLV_writeBytes s []
  simpa using h

lemma intFromContent_i32Content (v : Int)
    (h1 : -2147483648 ≤ v) (h2 : v < 2147483648) :
    intFromContent (i32Content v) = some v := by
  unfold i32Content
  split_ifs with hA hB hC
  · have hx : ((v % 256).toNat : Int) = v % 256 :=
      Int.toNat_of_nonneg (Int.emod_nonneg v (by norm_num))
    have hlt : v % 256 < 256 := Int.emod_lt_of_pos v (by norm_num)
    simp only [intFromContent, Option.some.injEq]
    split_ifs with hc <;> omega
  · have hx : ((v % 65536).toNat : Int) = v % 65536 :=
      Int.toNat_of_nonneg (Int.emod_nonneg v (by norm_num))
    have hlt : v % 65536 < 65536 := Int.emod_lt_of_pos v (by norm_num)
    simp only [intFromContent]
    rw [if_neg (by omega)]
    simp only [Option.some.injEq, beVal, List.foldl, List.length_nil]
    norm_num
    split_ifs with hc <;> omega
  · have hx : ((v % 16777216).toNat : Int) = v % 16777216 :=
      Int.toNat_of_nonneg (Int.emod_nonneg v (by norm_num))
    have hlt : v % 16777216 < 16777216 := Int.emod_lt_of_pos v (by norm_num)
    simp only [intFromContent]
    rw [if_neg (by omega)]
    simp only [Option.some.injEq, beVal, List.foldl, List.length_cons, List.length_nil]
    norm_num
    split_ifs with hc <;> omega
  · have hx : ((v % 4294967296).toNat : Int) = v % 4294967296 :=
      Int.toNat_of_nonneg (Int.emod_nonneg v (by norm_num))
    have hlt : v % 4294967296 < 4294967296 := Int.emod_lt_of_pos v (by norm_num)
    simp only [intFromContent]
    rw [if_neg (by omega)]
    simp only [Option.some.injEq, beVal, List.foldl, List.length_cons, List.length_nil]
    norm_num
    split_ifs with hc <;> omega

lemma readIntRaw_writeI32 (v : Int) (h1 : -2147483648 ≤ v) (h2 : v < 2147483648) :
    ∀ rest, readIntRaw (writeI32 v ++ rest) = some (v, rest) := by
  intro rest
  have hshape : writeI32 v ++ rest =
      2 :: (lenEncode (i32Content v).length ++ (i32Content v ++ rest)) := by
    simp [writeI32, List.append_assoc]
  rw [hshape]
  simp [readIntRaw, readTLV_mk, intFromContent_i32Content v h1 h2]

lemma readI32_writeI32 (v : Int) (h1 : -2147483648 ≤ v) (h2 : v < 2147483648) :
    ∀ rest, readI32 (writeI32 v ++ rest) = some (v, rest) := by
  intro rest
  simp only [readI32, readIntRaw_writeI32 v h1 h2]
  rw [if_neg (by omega)]

lemma decodeAux_encode (e u a p : List Nat) (b t : Int)
    (hb0 : 0 ≤ b) (hb1 : b < 2147483648) (ht0 : 0 ≤ t) (ht1 : t < 2147483648) :
    SecurityParams.decodeAux (SecurityParams.encode ⟨e, b, t, u, a, p⟩) =
      some ⟨e, b, t, u, a, p⟩ := by
  have h0 : readTLV 48 (SecurityParams.encode ⟨e, b, t, u, a, p⟩) =
      some (SecurityParams.encodeBody ⟨e, b, t, u, a, p⟩, []) := by
    have h := readTLV_mk 48 (SecurityParams.encodeBody ⟨e, b, t, u, a, p⟩) []
    simpa [SecurityParams.encode] using h
  have hb2 : (-2147483648 : Int) ≤ b := by omega
  have ht2 : (-2147483648 : Int) ≤ t := by omega
  have hneg : ¬(b < 0 ∨ t < 0) := by omega
  simp [SecurityParams.decodeAux, SecurityParams.encodeBody, h0,
    readTLV_writeBytes, readTLV_writeBytes_nil,
    readI32_writeI32 b hb2 hb1, readI32_writeI32 t ht2 ht1, hneg]

lemma mkRecord_eq (e u a p : List Nat) (b t : Int) (hb : 0 ≤ b) (ht : 0 ≤ t) :
    SecurityParams.mkRecord e b t u a p = ⟨e, b, t, u, a, p⟩ := by
  simp only [SecurityParams.mkRecord, SecurityParams.new, SecurityParams.set_engine_id,
    SecurityParams.set_engine_boots, SecurityParams.set_engine_time,
    SecurityParams.set_username, SecurityParams.set_auth_params,
    SecurityParams.set_priv_params]
  rw [if_neg (by omega), if_neg (by omega)]

lemma decodeAux_some_inv (buf : List Nat) (sp : SecurityParams)
    (h : SecurityParams.decodeAux buf = some sp) :
    0 ≤ sp.engine_boots ∧ 0 ≤ sp.engine_time := by
  simp only [SecurityParams.decodeAux] at h
  repeat' split at h
  all_goals try exact Option.noConfusion h
  simp only [Option.some.injEq] at h
  subst h
  refine ⟨?_, ?_⟩ <;> simp only [] <;> omega

lemma decode_ok_inv (buf : List Nat) (sp : SecurityParams)
    (h : SecurityParams.decode buf = Except.ok sp) :
    0 ≤ sp.engine_boots ∧ 0 ≤ sp.engine_time := by
  cases hx : SecurityParams.decodeAux buf with
  | none => simp [SecurityParams.decode, hx] at h
  | some sp1 =>
    have heq : sp1 = sp := by simpa [SecurityParams.decode, hx] using h
    subst heq
    exact decodeAux_some_inv buf sp1 hx

lemma decodeAux_none_of_raw (buf : List Nat) (e u a p : List Nat) (b t : Int)
    (h : SecurityParams.parseRawFields buf = some (e, b, t, u, a, p))
    (hbad : b < 0 ∨ t < 0 ∨ b < -2147483648 ∨ 2147483648 ≤ b ∨
      t < -2147483648 ∨ 2147483648 ≤ t) :
    SecurityParams.decodeAux buf = none := by
  simp only [SecurityParams.parseRawFields] at h
  cases h48 : readTLV 48 buf with
  | none => rw [h48] at h; exact Option.noConfusion h
  | some q =>
    obtain ⟨body, rest⟩ := q
    simp only [h48] at h
    by_cases hrest : rest = []
    · subst hrest
      rw [if_neg (by simp)] at h
      cases h4 : readTLV 4 body with
      | none => rw [h4] at h; exact Option.noConfusion h
      | some q1 =>
        obtain ⟨e1, r1⟩ := q1
        simp only [h4] at h
        cases hi1 : readIntRaw r1 with
        | none => rw [hi1] at h; exact Option.noConfusion h
        | some q2 =>
          obtain ⟨b1, r2⟩ := q2
          simp only [hi1] at h
          cases hi2 : readIntRaw r2 with
          | none => rw [hi2] at h; exact Option.noConfusion h
          | some q3 =>
            obtain ⟨t1, r3⟩ := q3
            simp only [hi2] at h
            cases hu : readTLV 4 r3 with
            | none => rw [hu] at h; exact Option.noConfusion h
            | some q4 =>
              obtain ⟨u1, r4⟩ := q4
              simp only [hu] at h
              cases ha : readTLV 4 r4 with
              | none => rw [ha] at h; exact Option.noConfusion h
              | some q5 =>
                obtain ⟨a1, r5⟩ := q5
                simp only [ha] at h
                cases hp : readTLV 4 r5 with
                | none => rw [hp] at h; exact Option.noConfusion h
                | some q6 =>
                  obtain ⟨p1, r6⟩ := q6
                  simp only [hp] at h
                  by_cases hr6 : r6 = []
                  · subst hr6
                    rw [if_neg (by simp)] at h
                    simp only [Option.some.injEq, Prod.mk.injEq] at h
                    obtain ⟨he, hb, ht, hu1, ha1, hp1⟩ := h
                    subst he; subst hb; subst ht; subst hu1; subst ha1; subst hp1
                    by_cases hbr : b1 < -2147483648 ∨ 2147483648 ≤ b1
                    · simp [SecurityParams.decodeAux, h48, h4, readI32, hi1, hbr]
                    · by_cases htr : t1 < -2147483648 ∨ 2147483648 ≤ t1
                      · simp [SecurityParams.decodeAux, h48, h4, readI32,
                          hi1, hi2, hbr, htr]
                      · have hneg : b1 < 0 ∨ t1 < 0 := by omega
                        simp [SecurityParams.decodeAux, h48, h4, readI32,
                          hi1, hi2, hbr, htr, hneg]
                  · rw [if_pos hr6] at h
                    exact Option.noConfusion h
    · rw [if_pos hrest] at h
      exact Option.noConfusion h

/-- Values producible through the public interface: `new`, `discovery`, a
successful `decode`, and closure under every setter. -/
inductive Produced : SecurityParams → Prop where
  | new : Produced SecurityParams.new
  | discovery : Produced SecurityParams.discovery
  | ofDecode (buf : List Nat) (sp : SecurityParams) :
      SecurityParams.decode buf = Except.ok sp → Produced sp
  | setEngineId (sp : SecurityParams) (x : List Nat) :
      Produced sp → Produced (sp.set_engine_id x)
  | setEngineBoots (sp : SecurityParams) (v : Int) :
      Produced sp → Produced (sp.set_engine_boots v)
  | setEngineTime (sp : SecurityParams) (v : Int) :
      Produced sp → Produced (sp.set_engine_time v)
  | setUsername (sp : SecurityParams) (x : List Nat) :
      Produced sp → Produced (sp.set_username x)
  | setAuthParams (sp : SecurityParams) (x : List Nat) :
      Produced sp → Produced (sp.set_auth_params x)
  | setAuthParamsPlaceholder (sp : SecurityParams) :
      Produced sp → Produced sp.set_auth_params_placeholder
  | setPrivParams (sp : SecurityParams) (x : List Nat) :
      Produced sp → Produced (sp.set_priv_params x)

/-- The fixed 35-byte incoming sample of the specification (§8). -/
def sampleEncodedParams : List Nat :=
  [0x30, 0x21, 0x04, 0x11, 0x80, 0x00, 0x1F, 0x88, 0x80, 0xFA, 0xA8, 0x11,
   0x60, 0x0F, 0xA2, 0xC5, 0x5E, 0x00, 0x00, 0x00, 0x00, 0x02, 0x01, 0x18,
   0x02, 0x03, 0x01, 0x85, 0xFC, 0x04, 0x00, 0x04, 0x00, 0x04, 0x00]

/-- The field values carried by `sampleEncodedParams`. -/
def sampleDecodedParams : SecurityParams :=
  ⟨[0x80, 0x00, 0x1F, 0x88, 0x80, 0xFA, 0xA8, 0x11, 0x60, 0x0F, 0xA2, 0xC5,
    0x5E, 0x00, 0x00, 0x00, 0x00], 0x18, 0x0185FC, [], [], []⟩

/-- The bytes of the ASCII string `username`. -/
def usernameBytes : List Nat := [0x75, 0x73, 0x65, 0x72, 0x6E, 0x61, 0x6D, 0x65]

/-- The fixed 55-byte outgoing sample of the specification (§8). -/
def sampleOutgoingParams : List Nat :=
  [0x30, 0x35, 0x04, 0x11, 0x80, 0x00, 0x1F, 0x88, 0x80, 0xFA, 0xA8, 0x11,
   0x60, 0x0F, 0xA2, 0xC5, 0x5E, 0x00, 0x00, 0x00, 0x00, 0x02, 0x01, 0x18,
   0x02, 0x03, 0x01, 0x85, 0xFC, 0x04, 0x08, 0x75, 0x73, 0x65, 0x72, 0x6E,
   0x61, 0x6D, 0x65, 0x04, 0x0C, 0x00, 0x00, 0x00, 0x00, 0x00, 0x00, 0x00,
   0x00, 0x00, 0x00, 0x00, 0x00, 0x04, 0x00]

/-! ### Claim theorems -/

/-- C1: for every record built from byte sequences e, u, a, p and
non-negative 32-bit integers b, t, decoding the encoding succeeds (with
exactly the original record), and re-encoding the decoded value yields the
same byte string as encoding the original record. -/
theorem encode_decode_encode_roundtrip (e u a p : List Nat) (b t : Int)
    (hb0 : 0 ≤ b) (hb1 : b < 2147483648) (ht0 : 0 ≤ t) (ht1 : t < 2147483648) :
    SecurityParams.decode (SecurityParams.encode (SecurityParams.mkRecord e b t u a p)) =
      Except.ok (SecurityParams.mkRecord e b t u a p) ∧
    (SecurityParams.decode
        (SecurityParams.encode (SecurityParams.mkRecord e b t u a p))).map
        SecurityParams.encode =
      Except.ok (SecurityParams.encode (SecurityParams.mkRecord e b t u a p)) := by
  rw [mkRecord_eq e u a p b t hb0 ht0]
  have hd := decodeAux_encode e u a p b t hb0 hb1 ht0 ht1
  constructor
  · simp [SecurityParams.decode, hd]
  · simp [SecurityParams.decode, hd, Except.map]

/-- Witness for C1 at a concrete record. -/
theorem encode_decode_encode_roundtrip_witness :
    SecurityParams.decode (SecurityParams.encode
        (SecurityParams.mkRecord [128, 0, 31] 5 300 [117] [] [9, 9])) =
      Except.ok (SecurityParams.mkRecord [128, 0, 31] 5 300 [117] [] [9, 9]) ∧
    (SecurityParams.decode (SecurityParams.encode
        (SecurityParams.mkRecord [128, 0, 31] 5 300 [117] [] [9, 9]))).map
        SecurityParams.encode =
      Except.ok (SecurityParams.encode
        (SecurityParams.mkRecord [128, 0, 31] 5 300 [117] [] [9, 9])) :=
  encode_decode_encode_roundtrip [128, 0, 31] [117] [] [9, 9] 5 300
    (by decide) (by decide) (by decide) (by decide)

/-- C2: an input that parses as a structurally valid six-element SEQUENCE
whose engine-boots or engine-time integer is negative is rejected by
`decode` with `MalformedSecurityParams`; no value with a clamped counter
is ever returned. -/
theorem decode_rejects_negative_counters (buf : List Nat)
    (e u a p : List Nat) (b t : Int)
    (h : SecurityParams.parseRawFields buf = some (e, b, t, u, a, p))
    (hneg : b < 0 ∨ t < 0) :
    SecurityParams.decode buf = Except.error SecurityError.MalformedSecurityParams := by
  have hn := decodeAux_none_of_raw buf e u a p b t h (by tauto)
  simp [SecurityParams.decode, hn]

/-- Witness for C2: a well-formed SEQUENCE with engine-boots −1. -/
theorem decode_rejects_negative_counters_witness :
    SecurityParams.parseRawFields
        [0x30, 0x0E, 0x04, 0x00, 0x02, 0x01, 0xFF, 0x02, 0x01, 0x00,
         0x04, 0x00, 0x04, 0x00, 0x04, 0x00] =
      some ([], -1, 0, [], [], []) ∧
    SecurityParams.decode
        [0x30, 0x0E, 0x04, 0x00, 0x02, 0x01, 0xFF, 0x02, 0x01, 0x00,
         0x04, 0x00, 0x04, 0x00, 0x04, 0x00] =
      Except.error SecurityError.MalformedSecurityParams :=
  ⟨by rfl,
    decode_rejects_negative_counters
      [0x30, 0x0E, 0x04, 0x00, 0x02, 0x01, 0xFF, 0x02, 0x01, 0x00,
       0x04, 0x00, 0x04, 0x00, 0x04, 0x00]
      [] [] [] [] (-1) 0 (by rfl) (by decide)⟩

/-- C3: every value produced by the public interface — construction, any
sequence of setter calls, or a successful decode — has non-negative
engine-boots and engine-time. -/
theorem produced_counters_nonneg (sp : SecurityParams) (h : Produced sp) :
    0 ≤ sp.engine_boots ∧ 0 ≤ sp.engine_time := by
  induction h with
  | new => exact ⟨le_refl 0, le_refl 0⟩
  | discovery => exact ⟨le_refl 0, le_refl 0⟩
  | ofDecode buf sp hdec => exact decode_ok_inv buf sp hdec
  | setEngineId sp x _ ih => exact ih
  | setEngineBoots sp v _ ih =>
    refine ⟨?_, ih.2⟩
    show 0 ≤ (if v < 0 then 0 else v)
    split <;> omega
  | setEngineTime sp v _ ih =>
    refine ⟨ih.1, ?_⟩
    show 0 ≤ (if v < 0 then 0 else v)
    split <;> omega
  | setUsername sp x _ ih => exact ih
  | setAuthParams sp x _ ih => exact ih
  | setAuthParamsPlaceholder sp _ ih => exact ih
  | setPrivParams sp x _ ih => exact ih

/-- Witness for C3: a produced value reached through a negative setter
input. -/
theorem produced_counters_nonneg_witness :
    0 ≤ ((SecurityParams.new.set_engine_boots (-7)).set_engine_time (-2)).engine_boots ∧
    0 ≤ ((SecurityParams.new.set_engine_boots (-7)).set_engine_time (-2)).engine_time :=
  produced_counters_nonneg _
    (Produced.setEngineTime _ (-2) (Produced.setEngineBoots _ (-7) Produced.new))

/-- C4: for any 32-bit integer input, the counter setters clamp negative
input to 0 and store non-negative input unchanged; they are total
functions and never fail. -/
theorem counter_setters_clamp (sp : SecurityParams) (b : Int)
    (hlo : -2147483648 ≤ b) (hhi : b < 2147483648) :
    (b < 0 → (sp.set_engine_boots b).engine_boots = 0 ∧
      (sp.set_engine_time b).engine_time = 0) ∧
    (0 ≤ b → (sp.set_engine_boots b).engine_boots = b ∧
      (sp.set_engine_time b).engine_time = b) := by
  constructor
  · intro h
    constructor <;>
      simp [SecurityParams.set_engine_boots, SecurityParams.set_engine_time, h]
  · intro h
    have h1 : ¬(b < 0) := by omega
    constructor <;>
      simp [SecurityParams.set_engine_boots, SecurityParams.set_engine_time, h1]

/-- Witness for C4 at the negative input −3. -/
theorem counter_setters_clamp_witness :
    ((-3 : Int) < 0 → (SecurityParams.new.set_engine_boots (-3)).engine_boots = 0 ∧
      (SecurityParams.new.set_engine_time (-3)).engine_time = 0) ∧
    ((0 : Int) ≤ -3 → (SecurityParams.new.set_engine_boots (-3)).engine_boots = -3 ∧
      (SecurityParams.new.set_engine_time (-3)).engine_time = -3) :=
  counter_setters_clamp SecurityParams.new (-3) (by decide) (by decide)

/-- C5: `new` and `discovery` produce the same canonical empty value, and
its encoding is the fixed 16-byte discovery sequence. -/
theorem new_discovery_canonical_empty :
    SecurityParams.new = SecurityParams.discovery ∧
    SecurityParams.new = ⟨[], 0, 0, [], [], []⟩ ∧
    SecurityParams.discovery.encode =
      [0x30, 0x0E, 0x04, 0x00, 0x02, 0x01, 0x00, 0x02, 0x01, 0x00,
       0x04, 0x00, 0x04, 0x00, 0x04, 0x00] :=
  ⟨rfl, rfl, by rfl⟩

/-- C6: decoding the 35-byte sample of the spec succeeds, and setting the
username to `username`, installing the 12-byte all-zero placeholder and
encoding yields exactly the 55-byte sample of the spec. -/
theorem sample_decode_modify_encode :
    SecurityParams.decode sampleEncodedParams = Except.ok sampleDecodedParams ∧
    ((sampleDecodedParams.set_username usernameBytes).set_auth_params_placeholder).encode =
      sampleOutgoingParams :=
  ⟨by rfl, by rfl⟩

/-- C7: decoding the empty byte string fails, and every failure of
`decode`, on any input, carries the single uniform error
`MalformedSecurityParams`. -/
theorem decode_error_uniform :
    SecurityParams.decode [] = Except.error SecurityError.MalformedSecurityParams ∧
    ∀ buf err, SecurityParams.decode buf = Except.error err →
      err = SecurityError.MalformedSecurityParams := by
  constructor
  · rfl
  · intro buf err h
    cases err
    rfl

/-- Witness for C7 at the empty input and a one-byte truncated input. -/
theorem decode_error_uniform_witness :
    SecurityParams.decode [] = Except.error SecurityError.MalformedSecurityParams ∧
    SecurityError.MalformedSecurityParams = SecurityError.MalformedSecurityParams :=
  ⟨decode_error_uniform.1,
    decode_error_uniform.2 [0x30] SecurityError.MalformedSecurityParams (by rfl)⟩

/-- C8: for every byte field, setting then getting returns exactly the
bytes set, regardless of the field's previous content — setters fully
replace. -/
theorem byte_field_set_get (sp : SecurityParams) (s : List Nat) :
    (sp.set_engine_id s).engine_id = s ∧
    (sp.set_username s).username = s ∧
    (sp.set_auth_params s).auth_params = s ∧
    (sp.set_priv_params s).priv_params = s :=
  ⟨rfl, rfl, rfl, rfl⟩

/-- C9: every setter modifies only its own field; the other five fields
are unchanged after the call, for every starting value and every input. -/
theorem setters_frame (sp : SecurityParams) (s : List Nat) (v : Int) :
    ((sp.set_engine_id s).engine_boots = sp.engine_boots ∧
      (sp.set_engine_id s).engine_time = sp.engine_time ∧
      (sp.set_engine_id s).username = sp.username ∧
      (sp.set_engine_id s).auth_params = sp.auth_params ∧
      (sp.set_engine_id s).priv_params = sp.priv_params) ∧
    ((sp.set_engine_boots v).engine_id = sp.engine_id ∧
      (sp.set_engine_boots v).engine_time = sp.engine_time ∧
      (sp.set_engine_boots v).username = sp.username ∧
      (sp.set_engine_boots v).auth_params = sp.auth_params ∧
      (sp.set_engine_boots v).priv_params = sp.priv_params) ∧
    ((sp.set_engine_time v).engine_id = sp.engine_id ∧
      (sp.set_engine_time v).engine_boots = sp.engine_boots ∧
      (sp.set_engine_time v).username = sp.username ∧
      (sp.set_engine_time v).auth_params = sp.auth_params ∧
      (sp.set_engine_time v).priv_params = sp.priv_params) ∧
    ((sp.set_username s).engine_id = sp.engine_id ∧
      (sp.set_username s).engine_boots = sp.engine_boots ∧
      (sp.set_username s).engine_time = sp.engine_time ∧
      (sp.set_username s).auth_params = sp.auth_params ∧
      (sp.set_username s).priv_params = sp.priv_params) ∧
    ((sp.set_auth_params s).engine_id = sp.engine_id ∧
      (sp.set_auth_params s).engine_boots = sp.engine_boots ∧
      (sp.set_auth_params s).engine_time = sp.engine_time ∧
      (sp.set_auth_params s).username = sp.username ∧
      (sp.set_auth_params s).priv_params = sp.priv_params) ∧
    (sp.set_auth_params_placeholder.engine_id = sp.engine_id ∧
      sp.set_auth_params_placeholder.engine_boots = sp.engine_boots ∧
      sp.set_auth_params_placeholder.engine_time = sp.engine_time ∧
      sp.set_auth_params_placeholder.username = sp.username ∧
      sp.set_auth_params_placeholder.priv_params = sp.priv_params) ∧
    ((sp.set_priv_params s).engine_id = sp.engine_id ∧
      (sp.set_priv_params s).engine_boots = sp.engine_boots ∧
      (sp.set_priv_params s).engine_time = sp.engine_time ∧
      (sp.set_priv_params s).username = sp.username ∧
      (sp.set_priv_params s).auth_params = sp.auth_params) :=
  ⟨⟨rfl, rfl, rfl, rfl, rfl⟩, ⟨rfl, rfl, rfl, rfl, rfl⟩, ⟨rfl, rfl, rfl, rfl, rfl⟩,
    ⟨rfl, rfl, rfl, rfl, rfl⟩, ⟨rfl, rfl, rfl, rfl, rfl⟩, ⟨rfl, rfl, rfl, rfl, rfl⟩,
    ⟨rfl, rfl, rfl, rfl, rfl⟩⟩

/-- C10: an input whose engine-boots or engine-time element is a
structurally valid BER integer exceeding 2^31 − 1 is rejected by `decode`
with `MalformedSecurityParams`; the value is never truncated or wrapped. -/
theorem decode_rejects_oversized_counters (buf : List Nat)
    (e u a p : List Nat) (b t : Int)
    (h : SecurityParams.parseRawFields buf = some (e, b, t, u, a, p))
    (hbig : 2147483647 < b ∨ 2147483647 < t) :
    SecurityParams.decode buf = Except.error SecurityError.MalformedSecurityParams := by
  have hn := decodeAux_none_of_raw buf e u a p b t h (by omega)
  simp [SecurityParams.decode, hn]

/-- Witness for C10: a well-formed SEQUENCE carrying engine-boots 2^31. -/
theorem decode_rejects_oversized_counters_witness :
    SecurityParams.parseRawFields
        [0x30, 0x12, 0x04, 0x00, 0x02, 0x05, 0x00, 0x80, 0x00, 0x00, 0x00,
         0x02, 0x01, 0x00, 0x04, 0x00, 0x04, 0x00, 0x04, 0x00] =
      some ([], 2147483648, 0, [], [], []) ∧
    SecurityParams.decode
        [0x30, 0x12, 0x04, 0x00, 0x02, 0x05, 0x00, 0x80, 0x00, 0x00, 0x00,
         0x02, 0x01, 0x00, 0x04, 0x00, 0x04, 0x00, 0x04, 0x00] =
      Except.error SecurityError.MalformedSecurityParams :=
  ⟨by rfl,
    decode_rejects_oversized_counters
      [0x30, 0x12, 0x04, 0x00, 0x02, 0x05, 0x00, 0x80, 0x00, 0x00, 0x00,
       0x02, 0x01, 0x00, 0x04, 0x00, 0x04, 0x00, 0x04, 0x00]
      [] [] [] [] 2147483648 0 (by rfl) (by decide)⟩
